import Mathlib

/-!
Verification development for the form-builder service (`main.go`).

The Go program is embedded shallowly:
* Go `map[string]string` values are association lists `List (String × String)`
  holding the map's contents; a Go `for ... range` loop over a map observes the
  entries in an arbitrary order, so every loop over a map is parameterised by
  the key sequence the runtime chooses, constrained to be a permutation of the
  map's key set (`IsIterKeys`).
* `sort.Strings` is modelled by insertion sort over Go's byte-lexicographic
  string order (UTF-8 byte order coincides with code-point order).
* The on-disk state (directories under `form-build/`, the per-form `form.json`
  and `form_answer.csv`) is a record `FS` keyed by FormID.  A `form.json`
  file is represented by the JSON value it holds; its byte content is
  `renderJsonPretty` of that value (the model of `json.Encoder` with
  `SetIndent("", "  ")`), and `json.Unmarshal` of such a file recovers the
  value, so `loadJSON` is modelled as returning the stored value.
* The HTTP handlers registered by `registerPath` become pure functions from
  (configuration, filesystem, request) to (filesystem, response).
-/

namespace FormBuilder

/-! ## Go string order and `sort.Strings` (main.go line 213) -/

/-- Go `<` on strings compares UTF-8 bytes lexicographically, which agrees
with lexicographic comparison of code points. -/
def strLtChars : List Char → List Char → Bool
  | [], [] => false
  | [], _ :: _ => true
  | _ :: _, [] => false
  | a :: as, b :: bs =>
    if a.toNat < b.toNat then true
    else if b.toNat < a.toNat then false
    else strLtChars as bs

/-- Go `a <= b` on strings. -/
def strLeB (a b : String) : Bool :=
  !(strLtChars b.toList a.toList)

/-- One insertion step of the ascending sort. -/
def insertStr (x : String) : List String → List String
  | [] => [x]
  | y :: ys => if strLeB x y then x :: y :: ys else y :: insertStr x ys

/-- Model of `sort.Strings`: sort ascending by Go string order. -/
def sortStrings (l : List String) : List String :=
  l.foldr insertStr []

/-! ## Go maps as association lists -/

/-- Go map read `m[k]`: the stored value, or the zero value `""` if absent. -/
def mapGet (m : List (String × String)) (k : String) : String :=
  (m.lookup k).getD ""

/-- Go `delete(m, k)`. -/
def mapDelete (m : List (String × String)) (k : String) : List (String × String) :=
  m.filter (fun p => p.1 != k)

/-- The key set of a map, in storage order. -/
def keysOf (m : List (String × String)) : List String :=
  m.map Prod.fst

/-- A Go map has at most one entry per key. -/
def NodupKeys (m : List (String × String)) : Prop :=
  (keysOf m).Nodup

/-- `ks` is a key sequence a Go `range` loop over `m` may produce: some
permutation of the key set (Go map iteration order is unspecified). -/
def IsIterKeys (m : List (String × String)) (ks : List String) : Prop :=
  ks.Perm (keysOf m)

/-! ## `sortByKey` (main.go lines 205-222)

The Go function collects the keys by ranging over the map (order `iterKeys`),
sorts them with `sort.Strings`, and builds a fresh map by inserting the pairs
in sorted key order.  The contents of the result are the sorted pairs; being a
Go map, its iteration order is again unspecified. -/

def sortByKey (input : List (String × String)) (iterKeys : List String) :
    List (String × String) :=
  (sortStrings iterKeys).map (fun k => (k, mapGet input k))

/-! ## Data model and validation (main.go lines 27-57, 143-149)

`Field` and `Form` carry go-playground/validator tags: `required` on a string
means non-empty, `required` on the slice means non-nil only (an empty bound
JSON array passes), `alphanum` means ASCII letters and digits only, and the
custom `fieldtype` tag checks membership in `validFieldTypes`. -/

structure Field where
  label : String
  type : String
  name : String
  placeholder : String
deriving Repr, DecidableEq

structure Form where
  title : String
  fields : List Field
deriving Repr, DecidableEq

/-- The fixed field-type enumeration (main.go lines 41-48). -/
def validFieldTypes : List String :=
  ["text", "email", "textarea", "number", "date", "checkbox"]

/-- The custom `fieldtype` validation (main.go lines 53-57). -/
def fieldTypeValidator (t : String) : Bool :=
  validFieldTypes.contains t

/-- One field's validator tags: `label` required, `type` required and in the
enumeration, `name` required and alphanumeric (ASCII `[a-zA-Z0-9]+`). -/
def validField (f : Field) : Bool :=
  f.label != "" && (f.type != "" && fieldTypeValidator f.type) &&
    (f.name != "" && f.name.toList.all Char.isAlphanum)

/-- The whole-form validation run by `CustomValidator.Validate`: `title`
required (non-empty string), `fields` required and each element valid
(`dive`).  For a slice, go-playground's `required` checks only that the
slice is non-nil, and a bound JSON array — including `[]` — is always
non-nil, so the tag holds for every representable value (a payload whose
`fields` key is absent or `null` binds to a nil slice and is rejected by the
real validator, but no such value is representable as a `List Field`).  In
particular a present-but-empty `fields` array passes validation. -/
def validateForm (f : Form) : Bool :=
  f.title != "" && f.fields.all validField

/-! ## JSON values and the Go encoders

`Json` models the generic JSON values involved: what `json.Encoder` writes
for a `*Form` and what `json.Unmarshal` yields as `map[string]interface{}`
(only strings, arrays and objects occur for this program's data). -/

inductive Json where
  | str (s : String)
  | arr (elems : List Json)
  | obj (members : List (String × Json))
deriving Repr

/-- Marshalling a `Form` per its struct tags (field order = struct order). -/
def encodeFieldJson (f : Field) : Json :=
  .obj [("label", .str f.label), ("type", .str f.type),
        ("name", .str f.name), ("placeholder", .str f.placeholder)]

/-- Marshalling a `Form` per its struct tags. -/
def encodeFormJson (f : Form) : Json :=
  .obj [("title", .str f.title), ("fields", .arr (f.fields.map encodeFieldJson))]

/-- Lower-case hex digit, as used by Go's `\u00XX` escapes. -/
def hexDigitChar (n : Nat) : Char :=
  if n < 10 then Char.ofNat (48 + n) else Char.ofNat (87 + n)

/-- Go's JSON string escaping (with the default HTML escaping of `<`, `>`,
`&`; control characters below 0x20 become `\u00XX`). -/
def escapeChar (c : Char) : String :=
  if c = '"' then "\\\""
  else if c = '\\' then "\\\\"
  else if c = '\n' then "\\n"
  else if c = '\r' then "\\r"
  else if c = '\t' then "\\t"
  else if c = '<' then "\\u003c"
  else if c = '>' then "\\u003e"
  else if c = '&' then "\\u0026"
  else if c.toNat < 32 then
    "\\u00" ++ String.mk [hexDigitChar (c.toNat / 16), hexDigitChar (c.toNat % 16)]
  else String.singleton c

/-- A JSON string literal. -/
def quoteJson (s : String) : String :=
  "\"" ++ String.join (s.toList.map escapeChar) ++ "\""

/-- `d` levels of the two-space indent set by `encoder.SetIndent("", "  ")`
(main.go line 260). -/
def indentOf (d : Nat) : String :=
  String.join (List.replicate d "  ")

mutual

/-- Pretty printing at depth `d`, following `json.Encoder` with
`SetIndent("", "  ")`. -/
def renderJP : Nat → Json → String
  | _, .str s => quoteJson s
  | d, .arr es =>
    if es.isEmpty then "[]"
    else "[\n" ++ renderJPArr (d + 1) es ++ "\n" ++ indentOf d ++ "]"
  | d, .obj ms =>
    if ms.isEmpty then "\x7b\x7d"
    else "\x7b\n" ++ renderJPObj (d + 1) ms ++ "\n" ++ indentOf d ++ "\x7d"

def renderJPArr : Nat → List Json → String
  | _, [] => ""
  | d, [e] => indentOf d ++ renderJP d e
  | d, e :: es => indentOf d ++ renderJP d e ++ ",\n" ++ renderJPArr d es

def renderJPObj : Nat → List (String × Json) → String
  | _, [] => ""
  | d, [(k, v)] => indentOf d ++ quoteJson k ++ ": " ++ renderJP d v
  | d, (k, v) :: ms =>
    indentOf d ++ quoteJson k ++ ": " ++ renderJP d v ++ ",\n" ++ renderJPObj d ms

end

/-- What `json.Encoder.Encode` writes for a value: the indented JSON plus a
trailing newline. -/
def renderJsonPretty (j : Json) : String :=
  renderJP 0 j ++ "\n"

/-- Insert a key-value pair into a list sorted by key (Go string order). -/
def insertPair (p : String × Json) : List (String × Json) → List (String × Json)
  | [] => [p]
  | q :: qs => if strLeB p.1 q.1 then p :: q :: qs else q :: insertPair p qs

/-- Sort object members ascending by key, as `json.Marshal` does for maps. -/
def sortPairs (l : List (String × Json)) : List (String × Json) :=
  l.foldr insertPair []

mutual

/-- Normalise a generic JSON value the way `json.Unmarshal` +
`json.Marshal` observes it: object keys lose their order (maps) and are
re-emitted sorted. -/
def sortJson : Json → Json
  | .str s => .str s
  | .arr es => .arr (sortJsonArr es)
  | .obj ms => .obj (sortPairs (sortJsonObj ms))

def sortJsonArr : List Json → List Json
  | [] => []
  | e :: es => sortJson e :: sortJsonArr es

def sortJsonObj : List (String × Json) → List (String × Json)
  | [] => []
  | (k, v) :: ms => (k, sortJson v) :: sortJsonObj ms

end

mutual

/-- Compact rendering in member order, following `json.Marshal`. -/
def renderJC : Json → String
  | .str s => quoteJson s
  | .arr es => "[" ++ renderJCArr es ++ "]"
  | .obj ms => "\x7b" ++ renderJCObj ms ++ "\x7d"

def renderJCArr : List Json → String
  | [] => ""
  | [e] => renderJC e
  | e :: es => renderJC e ++ "," ++ renderJCArr es

def renderJCObj : List (String × Json) → String
  | [] => ""
  | [(k, v)] => quoteJson k ++ ":" ++ renderJC v
  | (k, v) :: ms => quoteJson k ++ ":" ++ renderJC v ++ "," ++ renderJCObj ms

end

/-- `json.Marshal` applied to the generic value `json.Unmarshal` produced
(main.go line 284): compact, object keys sorted. -/
def renderJsonCompact (j : Json) : String :=
  renderJC (sortJson j)

/-- Reconstruct a `Field` from its generic JSON representation. -/
def fieldOfJson (j : Json) : Option Field :=
  match j with
  | .obj ms =>
    match ms.lookup "label", ms.lookup "type", ms.lookup "name",
        ms.lookup "placeholder" with
    | some (.str l), some (.str t), some (.str n), some (.str p) =>
      some ⟨l, t, n, p⟩
    | _, _, _, _ => none
  | _ => none

/-- Reconstruct the field list from its generic JSON representation. -/
def fieldsOfJson : List Json → Option (List Field)
  | [] => some []
  | j :: js =>
    match fieldOfJson j, fieldsOfJson js with
    | some f, some fs => some (f :: fs)
    | _, _ => none

/-- Reconstruct a `Form` from its generic JSON representation; witnesses that
the stored representation determines the form. -/
def formOfJson (j : Json) : Option Form :=
  match j with
  | .obj ms =>
    match ms.lookup "title", ms.lookup "fields" with
    | some (.str t), some (.arr es) => (fieldsOfJson es).map (fun fs => ⟨t, fs⟩)
    | _, _ => none
  | _ => none

/-! ## `filepath.Join` on slash paths (used at main.go lines 245, 251, 274,
285, 287, 310, 324)

`filepath.Join` concatenates its non-empty elements with `/` and then applies
`Clean`.  It is modelled on character lists. -/

/-- Split a character list on `/`, keeping empty segments. -/
def splitSlashAux (cur : List Char) : List Char → List (List Char)
  | [] => [cur.reverse]
  | c :: rest =>
    if c = '/' then cur.reverse :: splitSlashAux [] rest
    else splitSlashAux (c :: cur) rest

/-- Split a path into its `/`-separated segments. -/
def splitSlash (l : List Char) : List (List Char) :=
  splitSlashAux [] l

/-- The element processing of `path.Clean`: drop empty and `.` segments,
let `..` pop the last kept segment (or vanish at the root). -/
def cleanListAux (rooted : Bool) (acc : List (List Char)) :
    List (List Char) → List (List Char)
  | [] => acc.reverse
  | s :: rest =>
    if s = [] then cleanListAux rooted acc rest
    else if s = ['.'] then cleanListAux rooted acc rest
    else if s = ['.', '.'] then
      match acc with
      | [] =>
        if rooted then cleanListAux rooted [] rest
        else cleanListAux rooted [['.', '.']] rest
      | t :: ts =>
        if t = ['.', '.'] then cleanListAux rooted (s :: acc) rest
        else cleanListAux rooted ts rest
    else cleanListAux rooted (s :: acc) rest

/-- `path.Clean` on a character list: rooted paths keep their leading slash,
an unrooted result that cleans to nothing becomes `.`. -/
def goCleanChars (p : List Char) : List Char :=
  match p with
  | [] => ['.']
  | c :: _ =>
    if c = '/' then
      '/' :: ((cleanListAux true [] (splitSlash p)).intersperse ['/']).flatten
    else if ((cleanListAux false [] (splitSlash p)).intersperse ['/']).flatten = [] then
      ['.']
    else
      ((cleanListAux false [] (splitSlash p)).intersperse ['/']).flatten

/-- `path.Clean` on strings. -/
def goClean (s : String) : String :=
  String.mk (goCleanChars s.toList)

/-- `filepath.Join(a, b)`: empty elements are ignored, the rest are joined
with `/` and cleaned. -/
def goJoin2 (a b : String) : String :=
  if a != "" then goClean (a ++ "/" ++ b)
  else if b != "" then goClean b
  else ""

/-- A string usable verbatim as one path segment: non-empty, not a dot
segment, and without separators.  Route parameters such as `:formID` are
single path segments of this shape. -/
def cleanSeg (s : String) : Bool :=
  s != "" && s != "." && s != ".." && s.toList.all (fun c => c != '/')

/-! ## On-disk state

The handlers touch only `form-build/<id>`, `form-build/<id>/form.json` and
`form-build/<id>/form_answer.csv`, so the filesystem is kept keyed by the
FormID path segment.  A `form.json` file is recorded as the JSON value it
holds (its bytes are `renderJsonPretty` of that value); a CSV file is
recorded as its list of rows. -/

structure FS where
  dirs : List String
  files : List (String × Json)
  csv : List (String × List (List String))
deriving Repr

/-- The initial, empty filesystem. -/
def FS.empty : FS := ⟨[], [], []⟩

/-- `os.MkdirAll` (main.go lines 246, 311): creates the directory, succeeds
without change if it already exists. -/
def mkdirAll (fs : FS) (id : String) : FS :=
  if fs.dirs.contains id then fs else { fs with dirs := id :: fs.dirs }

/-- `os.Create` + `json.Encoder.Encode` of a form (main.go lines 252-263):
create or truncate the file, write the encoded value. -/
def setFile (fs : FS) (id : String) (j : Json) : FS :=
  { fs with files := (id, j) :: fs.files.filter (fun p => p.1 != id) }

/-- `fileExists` + `loadJSON` on `form-build/<id>/form.json` (main.go lines
182-202): `none` when the file does not exist, otherwise the generic JSON
value `json.Unmarshal` recovers from the file. -/
def readForm (fs : FS) (id : String) : Option Json :=
  fs.files.lookup id

/-- The rows of `form-build/<id>/form_answer.csv`; a missing file reads as
no rows (`O_CREATE` makes it an empty file). -/
def csvRows (fs : FS) (id : String) : List (List String) :=
  (fs.csv.lookup id).getD []

/-- Replace the CSV content for one form. -/
def setCsv (fs : FS) (id : String) (rows : List (List String)) : FS :=
  { fs with csv := (id, rows) :: fs.csv.filter (fun p => p.1 != id) }

/-! ## Responses, access gate, template rendering -/

inductive Response where
  | jsonMsg (status : Nat) (body : List (String × String))
  | html (status : Nat) (body : String)
deriving Repr, DecidableEq

/-- The HTTP status of a response. -/
def Response.status : Response → Nat
  | .jsonMsg s _ => s
  | .html s _ => s

inductive GateResult where
  | deny (msg : String)
  | allow
deriving Repr, DecidableEq

/-- Denial message for an absent or empty `x-client-key` header. -/
def missingKeyMsg : String := "x-client-key header is required"

/-- Denial message for a non-empty header matching no configured key. -/
def invalidKeyMsg : String := "key is not found"

/-- `clientKeyMiddleware` (main.go lines 152-166).  `Header.Get` returns `""`
for an absent header, so absent and empty coincide.  A non-empty key is
compared by string equality against every allowed key. -/
def clientKeyMiddleware (allowedClientKeys : List String) (clientKey : String) :
    GateResult :=
  if clientKey = "" then .deny missingKeyMsg
  else if allowedClientKeys.contains clientKey then .allow
  else .deny invalidKeyMsg

/-- The startup load of `allowedClientKeys` (main.go lines 50, 69): the slice
starts empty and `json.Unmarshal(conf.ClientKeys, &allowedClientKeys)` is
called with its error discarded, so a failed parse (`none`) leaves the slice
empty. -/
def unmarshalClientKeys (parsed : Option (List String)) : List String :=
  match parsed with
  | some ks => ks
  | none => []

/-- A parsed `text/template` document: literal runs and `.key` placeholders.
`form-build/form.html` has exactly the holes `data`, `url`, `clientXToken`. -/
inductive TplPart where
  | lit (s : String)
  | hole (key : String)
deriving Repr, DecidableEq

/-- `template.Execute` with a string-valued map: placeholders are replaced by
the mapped values (model of `makeHTML`, main.go lines 169-179). -/
def renderTemplate (tpl : List TplPart) (vals : List (String × String)) : String :=
  String.join (tpl.map fun p =>
    match p with
    | .lit s => s
    | .hole k => mapGet vals k)

/-! ## Request handlers (`registerPath`, main.go lines 225-370) -/

/-- The `/api/save-form` handler body (main.go lines 233-265), after a
successful bind.  `now` is `time.Now().UnixMilli()`.  The text of a
validation error response is `err.Error()` from the validator; only its
400 status matters here and it is modelled by a fixed marker string. -/
def saveFormHandler (fs : FS) (now : Nat) (form : Form) : FS × Response :=
  if validateForm form then
    let id := Nat.repr now
    let fs1 := mkdirAll fs id
    let fs2 := setFile fs1 id (encodeFormJson form)
    (fs2, .jsonMsg 200 [("message", "Form saved successfully"),
                        ("path", "form-build/" ++ id ++ "/form.json")])
  else
    (fs, .jsonMsg 400 [("message", "validation error")])

/-- The fixed pseudo-credential substituted on every render
(main.go line 288). -/
def staticClientXToken : String := "x.y.z"

/-- The `/api/get-form/:formID` handler (main.go lines 268-295). -/
def getFormHandler (domain : String) (tpl : List TplPart) (fs : FS)
    (id : String) : Response :=
  if id = "" then
    .jsonMsg 400 [("message", "Missing mandatory parameter")]
  else
    match readForm fs id with
    | none =>
      .jsonMsg 404
        [("message", "Failed get form because the form not found or no longer exists")]
    | some j =>
      .html 200 (renderTemplate tpl
        [("data", renderJsonCompact j),
         ("url", domain ++ goJoin2 "/api/submit-form/" id),
         ("clientXToken", staticClientXToken)])

/-- The iteration orders the Go runtime picks for the three `range` loops of
the submit handler: inside `sortByKey`, for the header row, and for the data
row.  Each is an arbitrary permutation of the ranged map's keys. -/
structure SubmitEnv where
  sortOrd : List String
  headerOrd : List String
  recordOrd : List String
deriving Repr

/-- The success response of the submit handler (main.go lines 364-366). -/
def redirectHtml (referrer : String) : String :=
  "<meta http-equiv=\"refresh\" content=\"3;url=" ++ referrer ++
    "\" />\n\t\t<h1>Form submitted successfully, you will redirect previous page in 3 seconds</h1>\n\t\t"

/-- The `/api/submit-form/:formID` handler body (main.go lines 297-369),
after a successful bind of the form data. -/
def submitFormHandler (fs : FS) (formData : List (String × String))
    (env : SubmitEnv) : FS × Response :=
  if mapGet formData "formID" = "" then
    (fs, .jsonMsg 400 [("message", "Invalid form data")])
  else
    let fid := mapGet formData "formID"
    let fs1 := mkdirAll fs fid
    let referrer := mapGet formData "referrer"
    let stripped :=
      mapDelete (mapDelete (mapDelete formData "formID") "clientXToken") "referrer"
    let sorted := sortByKey stripped env.sortOrd
    let rows := csvRows fs1 fid
    let headerRows : List (List String) := if rows.isEmpty then [env.headerOrd] else []
    let record := env.recordOrd.map (mapGet sorted)
    let fs2 := setCsv fs1 fid (rows ++ headerRows ++ [record])
    (fs2, .html 200 (redirectHtml referrer))

/-- One incoming request, with the per-request environment inputs (client key
header, wall clock, runtime iteration orders). -/
inductive Request where
  | root
  | save (clientKey : String) (form : Form) (now : Nat)
  | getForm (formID : String)
  | submit (formData : List (String × String)) (env : SubmitEnv)

/-- The routing set up by `main` and `registerPath`: only `/api/save-form`
is wrapped in `clientKeyMiddleware` (main.go line 266; the group-level use on
line 230 is commented out). -/
def handleRequest (keys : List String) (domain : String) (tpl : List TplPart)
    (fs : FS) : Request → FS × Response
  | .root => (fs, .jsonMsg 200 [("message", "form builder"), ("version", "1.0.0")])
  | .save key form now =>
    match clientKeyMiddleware keys key with
    | .deny msg => (fs, .jsonMsg 403 [("message", msg)])
    | .allow => saveFormHandler fs now form
  | .getForm id => (fs, getFormHandler domain tpl fs id)
  | .submit fd env => submitFormHandler fs fd env

/-! ## Decidability instances and example inputs -/

instance (m : List (String × String)) : Decidable (NodupKeys m) :=
  inferInstanceAs (Decidable ((keysOf m).Nodup))

instance (m : List (String × String)) (ks : List String) :
    Decidable (IsIterKeys m ks) :=
  inferInstanceAs (Decidable (ks.Perm (keysOf m)))

/-- A valid form used to instantiate theorems with hypotheses. -/
def wForm : Form := ⟨"Contact", [⟨"Name", "text", "name", "your name"⟩]⟩

/-- The submitted field map of the spec's CSV example. -/
def exData : List (String × String) :=
  [("formID", "123"), ("clientXToken", "x"), ("referrer", "http://x"),
   ("name", "Alice"), ("email", "a@b.com")]

/-- A legitimate choice of runtime iteration orders for `exData`'s submit:
every loop happens to walk `name` before `email`. -/
def exEnv : SubmitEnv := ⟨["name", "email"], ["name", "email"], ["name", "email"]⟩

/-- Field map for the two-append scenario of C2. -/
def twoData : List (String × String) := [("formID", "7"), ("a", "1"), ("b", "2")]

/-- Iteration orders for the first append: header loop walks `a` then `b`,
record loop walks `b` then `a`. -/
def twoEnvA : SubmitEnv := ⟨["a", "b"], ["a", "b"], ["b", "a"]⟩

/-- Iteration orders for the second append. -/
def twoEnvB : SubmitEnv := ⟨["b", "a"], ["a", "b"], ["a", "b"]⟩

/-- A store holding one saved form under FormID `123`. -/
def wStore : FS := setFile FS.empty "123" (encodeFormJson wForm)

/-- A small parsed template with the three holes of `form-build/form.html`. -/
def exTpl : List TplPart :=
  [.lit "<script>data = ", .hole "data", .lit "; action = ", .hole "url",
   .lit "; token = ", .hole "clientXToken", .lit ";</script>"]

/-! ## Helper lemmas -/

theorem insertStr_perm (x : String) (l : List String) :
    (insertStr x l).Perm (x :: l) := by
  induction l with
  | nil => exact List.Perm.refl _
  | cons y ys ih =>
    by_cases h : strLeB x y = true
    · simp [insertStr, h]
    · simp only [insertStr, h, if_neg]
      exact (List.Perm.cons y ih).trans (List.Perm.swap x y ys)

theorem sortStrings_perm (l : List String) : (sortStrings l).Perm l := by
  induction l with
  | nil => exact List.Perm.refl _
  | cons x xs ih =>
    exact (insertStr_perm x (sortStrings xs)).trans (List.Perm.cons x ih)

theorem fieldOfJson_encode (f : Field) :
    fieldOfJson (encodeFieldJson f) = some f := rfl

theorem fieldsOfJson_encode (fs : List Field) :
    fieldsOfJson (fs.map encodeFieldJson) = some fs := by
  induction fs with
  | nil => rfl
  | cons f fs ih => simp [fieldsOfJson, fieldOfJson_encode, ih]

theorem formOfJson_encode (f : Form) :
    formOfJson (encodeFormJson f) = some f := by
  simp [formOfJson, encodeFormJson, List.lookup, fieldsOfJson_encode]

theorem readForm_setFile (fs : FS) (id : String) (j : Json) :
    readForm (setFile fs id j) id = some j := by
  simp [readForm, setFile, List.lookup]

theorem keysOf_map_mapGet (m : List (String × String)) (h : NodupKeys m) :
    (keysOf m).map (fun k => (k, mapGet m k)) = m := by
  induction m with
  | nil => rfl
  | cons p t ih =>
    obtain ⟨k, v⟩ := p
    have hk : k ∉ keysOf t := by
      simpa [NodupKeys, keysOf] using (List.nodup_cons.mp h).1
    have ht : NodupKeys t := by
      simpa [NodupKeys, keysOf] using (List.nodup_cons.mp h).2
    have hhead : mapGet ((k, v) :: t) k = v := by
      simp [mapGet, List.lookup]
    have htail : (keysOf t).map (fun x => (x, mapGet ((k, v) :: t) x)) =
        (keysOf t).map (fun x => (x, mapGet t x)) := by
      refine List.map_congr_left (fun x hx => ?_)
      have hxk : x ≠ k := fun hxe => hk (hxe ▸ hx)
      have hb : (x == k) = false := by simp [hxk]
      simp [mapGet, List.lookup, hb]
    calc (keysOf ((k, v) :: t)).map (fun x => (x, mapGet ((k, v) :: t) x))
        = (k, mapGet ((k, v) :: t) k) ::
            (keysOf t).map (fun x => (x, mapGet ((k, v) :: t) x)) := by
          simp [keysOf]
      _ = (k, v) :: (keysOf t).map (fun x => (x, mapGet t x)) := by
          rw [hhead, htail]
      _ = (k, v) :: t := by rw [ih ht]

theorem lookup_map_pair (g : String → String) (ks : List String) (k : String) :
    ((ks.map (fun x => (x, g x))).lookup k) =
      if k ∈ ks then some (g k) else none := by
  induction ks with
  | nil => simp
  | cons x xs ih =>
    by_cases hx : k = x
    · subst hx; simp [List.lookup]
    · have hb : (k == x) = false := by simp [hx]
      simp [List.lookup, hb, ih, hx]

theorem splitSlashAux_no_slash (l : List Char) (h : ∀ c ∈ l, c ≠ '/') :
    ∀ cur, splitSlashAux cur l = [cur.reverse ++ l] := by
  induction l with
  | nil => intro cur; simp [splitSlashAux]
  | cons c rest ih =>
    intro cur
    have hc : ¬(c = '/') := h c (List.mem_cons_self c rest)
    rw [splitSlashAux, if_neg hc, ih (fun x hx => h x (List.mem_cons_of_mem c hx))]
    simp

theorem toList_ne_of_ne {s t : String} (h : s ≠ t) : s.toList ≠ t.toList := by
  intro he
  apply h
  cases s; cases t
  exact congrArg String.mk (by simpa [String.toList] using he)

theorem goJoin2_submit (id : String) (hid : cleanSeg id = true) :
    goJoin2 "/api/submit-form/" id = "/api/submit-form/" ++ id := by
  have h1 : id ≠ "" := by
    intro he; subst he; simp [cleanSeg] at hid
  have h2 : id ≠ "." := by
    intro he; subst he; simp [cleanSeg] at hid
  have h3 : id ≠ ".." := by
    intro he; subst he; simp [cleanSeg] at hid
  have h4 : ∀ c ∈ id.toList, c ≠ '/' := by
    have hs := hid
    simp [cleanSeg] at hs
    exact hs.2
  have e1 : id.data ≠ [] := by
    have := toList_ne_of_ne h1; simpa [String.toList] using this
  have e2 : id.data ≠ ['.'] := by
    have := toList_ne_of_ne h2; simpa [String.toList] using this
  have e3 : id.data ≠ ['.', '.'] := by
    have := toList_ne_of_ne h3; simpa [String.toList] using this
  have hpre : ("/api/submit-form/" ++ "/") = "/api/submit-form//" := by decide
  have happ : ("/api/submit-form//" ++ id).toList =
      "/api/submit-form//".toList ++ id.toList := rfl
  have hsp : ∀ cur, splitSlashAux cur id.data = [cur.reverse ++ id.data] :=
    splitSlashAux_no_slash id.toList h4
  unfold goJoin2
  rw [if_pos (by decide), hpre]
  unfold goClean
  rw [happ]
  simp only [show "/api/submit-form//".toList =
    ['/', 'a', 'p', 'i', '/', 's', 'u', 'b', 'm', 'i', 't', '-', 'f', 'o',
     'r', 'm', '/', '/'] from by decide]
  simp [goCleanChars, splitSlash, splitSlashAux, hsp, cleanListAux, e1, e2, e3,
    List.intersperse, String.toList]
  rw [show ("/api/submit-form/" ++ id) = String.mk ("/api/submit-form/".data ++ id.data)
    from rfl]
  rw [show "/api/submit-form/".data =
    ['/', 'a', 'p', 'i', '/', 's', 'u', 'b', 'm', 'i', 't', '-', 'f', 'o', 'r', 'm', '/']
    from by decide]
  exact congrArg String.mk (by simp)

/-- C1: the claim requires the header row of a fresh CSV to be exactly the
remaining keys in sorted order (`email,name` in the spec's own example), but
the code collects the header by ranging over a Go map, whose iteration order
is arbitrary: under the legitimate iteration orders `exEnv` (each a
permutation of the ranged map's keys, as the first three conjuncts check),
the example submission writes the header `name,email` instead.  The reserved
keys' values are indeed absent from the CSV (last three conjuncts), but the
header is not the sorted key list, refuting the claim. -/
theorem submit_example_header_not_sorted :
    IsIterKeys [("name", "Alice"), ("email", "a@b.com")] exEnv.sortOrd ∧
    IsIterKeys (sortByKey [("name", "Alice"), ("email", "a@b.com")] exEnv.sortOrd)
      exEnv.headerOrd ∧
    IsIterKeys (sortByKey [("name", "Alice"), ("email", "a@b.com")] exEnv.sortOrd)
      exEnv.recordOrd ∧
    mapDelete (mapDelete (mapDelete exData "formID") "clientXToken") "referrer" =
      [("name", "Alice"), ("email", "a@b.com")] ∧
    csvRows (submitFormHandler FS.empty exData exEnv).1 "123" =
      [["name", "email"], ["Alice", "a@b.com"]] ∧
    ["name", "email"] ≠ ["email", "name"] ∧
    "123" ∉ (csvRows (submitFormHandler FS.empty exData exEnv).1 "123").flatten ∧
    "x" ∉ (csvRows (submitFormHandler FS.empty exData exEnv).1 "123").flatten ∧
    "http://x" ∉ (csvRows (submitFormHandler FS.empty exData exEnv).1 "123").flatten := by
  decide

/-- C2: after two appends to the same FormID the CSV does hold exactly one
header row and two data rows, but a data row need not list its values in the
header's key order: the record loop ranges over the map independently of the
header loop, and under the legitimate orders `twoEnvA`/`twoEnvB` the first
data row comes out `2,1` while the header `a,b` in header-key order would
read `1,2`.  This refutes the "same key order as the header row" part. -/
theorem submit_two_appends_row_not_in_header_order :
    IsIterKeys [("a", "1"), ("b", "2")] twoEnvA.sortOrd ∧
    IsIterKeys (sortByKey [("a", "1"), ("b", "2")] twoEnvA.sortOrd) twoEnvA.headerOrd ∧
    IsIterKeys (sortByKey [("a", "1"), ("b", "2")] twoEnvA.sortOrd) twoEnvA.recordOrd ∧
    IsIterKeys [("a", "1"), ("b", "2")] twoEnvB.sortOrd ∧
    IsIterKeys (sortByKey [("a", "1"), ("b", "2")] twoEnvB.sortOrd) twoEnvB.headerOrd ∧
    IsIterKeys (sortByKey [("a", "1"), ("b", "2")] twoEnvB.sortOrd) twoEnvB.recordOrd ∧
    csvRows (submitFormHandler (submitFormHandler FS.empty twoData twoEnvA).1
        twoData twoEnvB).1 "7" = [["a", "b"], ["2", "1"], ["1", "2"]] ∧
    (csvRows (submitFormHandler (submitFormHandler FS.empty twoData twoEnvA).1
        twoData twoEnvB).1 "7").length = 3 ∧
    ["2", "1"] ≠
      ["a", "b"].map (mapGet (sortByKey [("a", "1"), ("b", "2")] twoEnvA.sortOrd)) := by
  decide

/-- C9: `sortByKey` is the identity on map contents — its result is a
permutation of the input entries (hence lookup-identical) — and it imposes no
observable ordering: a Go map is only observed through `range`, and the
possible iteration key sequences of the result are exactly those of the
input. -/
theorem sortByKey_content_identity (m : List (String × String))
    (ord : List String) (hm : NodupKeys m) (hord : IsIterKeys m ord) :
    (sortByKey m ord).Perm m ∧
    (∀ k, (sortByKey m ord).lookup k = m.lookup k) ∧
    (∀ out, IsIterKeys (sortByKey m ord) out ↔ IsIterKeys m out) := by
  have hperm : (sortStrings ord).Perm (keysOf m) :=
    (sortStrings_perm ord).trans hord
  have hmap : sortByKey m ord = (sortStrings ord).map (fun k => (k, mapGet m k)) := rfl
  have hkeys : keysOf (sortByKey m ord) = sortStrings ord := by
    show List.map Prod.fst (List.map (fun k => (k, mapGet m k)) (sortStrings ord)) =
      sortStrings ord
    rw [List.map_map,
      show (Prod.fst ∘ fun k : String => (k, mapGet m k)) = id from rfl,
      List.map_id]
  have hentries : (sortByKey m ord).Perm m := by
    have h1 := hperm.map (fun k => (k, mapGet m k))
    rw [keysOf_map_mapGet m hm] at h1
    exact hmap ▸ h1
  refine ⟨hentries, fun k => ?_, fun out => ?_⟩
  · rw [hmap, lookup_map_pair]
    conv_rhs => rw [← keysOf_map_mapGet m hm, lookup_map_pair]
    by_cases hk : k ∈ keysOf m
    · rw [if_pos (hperm.mem_iff.mpr hk), if_pos hk]
    · rw [if_neg (fun hc => hk (hperm.mem_iff.mp hc)), if_neg hk]
  · unfold IsIterKeys
    rw [hkeys]
    exact ⟨fun h => h.trans hperm, fun h => h.trans hperm.symm⟩

theorem sortByKey_content_identity_witness :
    (sortByKey [("b", "2"), ("a", "1")] ["a", "b"]).Perm [("b", "2"), ("a", "1")] ∧
    (sortByKey [("b", "2"), ("a", "1")] ["a", "b"]).lookup "a" =
      [("b", "2"), ("a", "1")].lookup "a" ∧
    (IsIterKeys (sortByKey [("b", "2"), ("a", "1")] ["a", "b"]) ["b", "a"] ↔
      IsIterKeys [("b", "2"), ("a", "1")] ["b", "a"]) :=
  ⟨(sortByKey_content_identity [("b", "2"), ("a", "1")] ["a", "b"]
      (by decide) (by decide)).1,
   (sortByKey_content_identity [("b", "2"), ("a", "1")] ["a", "b"]
      (by decide) (by decide)).2.1 "a",
   (sortByKey_content_identity [("b", "2"), ("a", "1")] ["a", "b"]
      (by decide) (by decide)).2.2 ["b", "a"]⟩

/-- C3 (amended): a form with any invalid field — empty title, empty label,
type outside the fixed enumeration, or a name that is empty or not purely
alphanumeric — is rejected by validation with status 400 and nothing is
written: the filesystem comes back unchanged (no directory, no `form.json`).
A present-but-empty fields list is NOT among the invalid cases: go-playground
`required` on a slice only rejects nil, so such forms are accepted (see the
counterexample).  Stated for requests that pass the access gate, which is
where validation runs. -/
theorem save_invalid_form_rejected_no_write (keys : List String)
    (domain : String) (tpl : List TplPart) (fs : FS) (key : String)
    (form : Form) (now : Nat) (hkey : key ≠ "")
    (hmem : keys.contains key = true) (hbad : validateForm form = false) :
    handleRequest keys domain tpl fs (.save key form now) =
      (fs, .jsonMsg 400 [("message", "validation error")]) := by
  have hm : key ∈ keys := by simpa using hmem
  simp [handleRequest, clientKeyMiddleware, hkey, hm, saveFormHandler, hbad]

theorem save_invalid_form_rejected_no_write_witness :
    handleRequest ["api-key-1", "api-key-2"] "http://0.0.0.0:8080" [] FS.empty
        (.save "api-key-1" ⟨"", []⟩ 5) =
      (FS.empty, .jsonMsg 400 [("message", "validation error")]) :=
  save_invalid_form_rejected_no_write _ _ _ _ _ _ _ (by decide) (by decide)
    (by decide)

/-- C5: the gate denies an empty (= absent) `x-client-key` with the missing-
key message and a non-empty unknown key with the distinct invalid-key
message, both 403; a configured key proceeds to the save handler.  Only
save-form is gated: the get-form and submit-form outcomes are independent of
the configured key set. -/
theorem gate_behavior :
    (∀ keys domain tpl fs form now,
      handleRequest keys domain tpl fs (.save "" form now) =
        (fs, .jsonMsg 403 [("message", missingKeyMsg)])) ∧
    (∀ keys domain tpl fs key form now, key ≠ "" → keys.contains key = false →
      handleRequest keys domain tpl fs (.save key form now) =
        (fs, .jsonMsg 403 [("message", invalidKeyMsg)])) ∧
    missingKeyMsg ≠ invalidKeyMsg ∧
    (∀ keys domain tpl fs key form now, key ≠ "" → keys.contains key = true →
      handleRequest keys domain tpl fs (.save key form now) =
        saveFormHandler fs now form) ∧
    (∀ keys keys2 domain tpl fs id,
      handleRequest keys domain tpl fs (.getForm id) =
        handleRequest keys2 domain tpl fs (.getForm id)) ∧
    (∀ keys keys2 domain tpl fs fd env,
      handleRequest keys domain tpl fs (.submit fd env) =
        handleRequest keys2 domain tpl fs (.submit fd env)) := by
  refine ⟨?_, ?_, by decide, ?_, ?_, ?_⟩
  · intro keys domain tpl fs form now
    simp [handleRequest, clientKeyMiddleware]
  · intro keys domain tpl fs key form now hkey hmem
    have hm : key ∉ keys := by simpa using hmem
    simp [handleRequest, clientKeyMiddleware, hkey, hm]
  · intro keys domain tpl fs key form now hkey hmem
    have hm : key ∈ keys := by simpa using hmem
    simp [handleRequest, clientKeyMiddleware, hkey, hm]
  · intro keys keys2 domain tpl fs id
    simp [handleRequest]
  · intro keys keys2 domain tpl fs fd env
    simp [handleRequest]

theorem gate_behavior_witness :
    handleRequest ["api-key-1", "api-key-2"] "http://0.0.0.0:8080" [] FS.empty
        (.save "nope" wForm 5) =
      (FS.empty, .jsonMsg 403 [("message", invalidKeyMsg)]) ∧
    handleRequest ["api-key-1", "api-key-2"] "http://0.0.0.0:8080" [] FS.empty
        (.save "api-key-1" wForm 5) = saveFormHandler FS.empty 5 wForm :=
  ⟨gate_behavior.2.1 ["api-key-1", "api-key-2"] "http://0.0.0.0:8080" []
      FS.empty "nope" wForm 5 (by decide) (by decide),
   gate_behavior.2.2.2.1 ["api-key-1", "api-key-2"] "http://0.0.0.0:8080" []
      FS.empty "api-key-1" wForm 5 (by decide) (by decide)⟩

/-- C6: a successful save uses the decimal string of the epoch-millisecond
timestamp as FormID, creates `form-build/<FormID>` (leaving the directory
list unchanged when it already exists), and stores in `form.json` exactly the
two-space-indented pretty JSON of the form. -/
theorem save_success_layout (fs : FS) (now : Nat) (form : Form)
    (hv : validateForm form = true) :
    (saveFormHandler fs now form).2 =
      .jsonMsg 200 [("message", "Form saved successfully"),
                    ("path", "form-build/" ++ Nat.repr now ++ "/form.json")] ∧
    (saveFormHandler fs now form).1.dirs.contains (Nat.repr now) = true ∧
    (fs.dirs.contains (Nat.repr now) = true →
      (saveFormHandler fs now form).1.dirs = fs.dirs) ∧
    readForm (saveFormHandler fs now form).1 (Nat.repr now) =
      some (encodeFormJson form) ∧
    (readForm (saveFormHandler fs now form).1 (Nat.repr now)).map renderJsonPretty =
      some (renderJsonPretty (encodeFormJson form)) := by
  refine ⟨?_, ?_, ?_, ?_, ?_⟩
  · simp [saveFormHandler, hv]
  · by_cases h : Nat.repr now ∈ fs.dirs
    · simp [saveFormHandler, hv, setFile, mkdirAll, h]
    · simp [saveFormHandler, hv, setFile, mkdirAll, h]
  · intro h
    have hm : Nat.repr now ∈ fs.dirs := by simpa using h
    simp [saveFormHandler, hv, setFile, mkdirAll, hm]
  · simp [saveFormHandler, hv, readForm_setFile]
  · simp [saveFormHandler, hv, readForm_setFile]

theorem save_success_layout_witness :
    (saveFormHandler FS.empty 1700000000000 wForm).2 =
      .jsonMsg 200 [("message", "Form saved successfully"),
                    ("path", "form-build/" ++ Nat.repr 1700000000000 ++ "/form.json")] ∧
    (saveFormHandler FS.empty 1700000000000 wForm).1.dirs.contains
      (Nat.repr 1700000000000) = true ∧
    (FS.empty.dirs.contains (Nat.repr 1700000000000) = true →
      (saveFormHandler FS.empty 1700000000000 wForm).1.dirs = FS.empty.dirs) ∧
    readForm (saveFormHandler FS.empty 1700000000000 wForm).1
      (Nat.repr 1700000000000) = some (encodeFormJson wForm) ∧
    (readForm (saveFormHandler FS.empty 1700000000000 wForm).1
      (Nat.repr 1700000000000)).map renderJsonPretty =
      some (renderJsonPretty (encodeFormJson wForm)) :=
  save_success_layout FS.empty 1700000000000 wForm (by decide)

/-- C4: reading the FormID right after a create returns the representation
just stored, which determines a Form equal to the one saved
(`formOfJson` inverts the encoding); reading any FormID with no stored file
answers 404 NotFound. -/
theorem create_read_roundtrip_and_notfound :
    (∀ fs now form, validateForm form = true →
      readForm (saveFormHandler fs now form).1 (Nat.repr now) =
        some (encodeFormJson form) ∧
      formOfJson (encodeFormJson form) = some form) ∧
    (∀ domain tpl fs id, id ≠ "" → readForm fs id = none →
      getFormHandler domain tpl fs id =
        .jsonMsg 404
          [("message",
            "Failed get form because the form not found or no longer exists")]) := by
  constructor
  · intro fs now form hv
    refine ⟨?_, formOfJson_encode form⟩
    simp [saveFormHandler, hv, readForm_setFile]
  · intro domain tpl fs id hid hnone
    simp [getFormHandler, hid, hnone]

theorem create_read_roundtrip_and_notfound_witness :
    (readForm (saveFormHandler FS.empty 5 wForm).1 (Nat.repr 5) =
      some (encodeFormJson wForm) ∧
     formOfJson (encodeFormJson wForm) = some wForm) ∧
    getFormHandler "http://0.0.0.0:8080" [] FS.empty "9" =
      .jsonMsg 404
        [("message",
          "Failed get form because the form not found or no longer exists")] :=
  ⟨create_read_roundtrip_and_notfound.1 FS.empty 5 wForm (by decide),
   create_read_roundtrip_and_notfound.2 "http://0.0.0.0:8080" [] FS.empty "9"
     (by decide) rfl⟩

/-- C7 counterexample: a whitespace-only FormID is NOT rejected with the
missing-mandatory-parameter signal — the handler only tests for the empty
string, so `" "` proceeds to the on-disk existence check and answers 404. -/
theorem get_whitespace_id_not_rejected :
    getFormHandler "http://0.0.0.0:8080" [] FS.empty " " =
      .jsonMsg 404
        [("message",
          "Failed get form because the form not found or no longer exists")] ∧
    (getFormHandler "http://0.0.0.0:8080" [] FS.empty " ").status ≠ 400 := by
  decide

/-- C7 amended: only an EMPTY FormID parameter is rejected with the
missing-mandatory-parameter signal (400), and that rejection happens before
any filesystem access — the response is the same for every filesystem
state. -/
theorem get_empty_id_rejected_before_fs (domain : String) (tpl : List TplPart)
    (fs fs2 : FS) :
    getFormHandler domain tpl fs "" =
      .jsonMsg 400 [("message", "Missing mandatory parameter")] ∧
    getFormHandler domain tpl fs "" = getFormHandler domain tpl fs2 "" := by
  simp [getFormHandler]

/-- C10: when the configured client-key value fails to parse as a JSON array
the error is discarded and the allowed-key slice stays empty, so every
save-form request with a non-empty `x-client-key` header is denied with the
invalid-key message. -/
theorem unparsable_keys_deny_all (key : String) (domain : String)
    (tpl : List TplPart) (fs : FS) (form : Form) (now : Nat)
    (hkey : key ≠ "") :
    unmarshalClientKeys none = [] ∧
    clientKeyMiddleware (unmarshalClientKeys none) key = .deny invalidKeyMsg ∧
    handleRequest (unmarshalClientKeys none) domain tpl fs
        (.save key form now) =
      (fs, .jsonMsg 403 [("message", invalidKeyMsg)]) := by
  refine ⟨rfl, ?_, ?_⟩
  · simp [clientKeyMiddleware, unmarshalClientKeys, hkey]
  · simp [handleRequest, clientKeyMiddleware, unmarshalClientKeys, hkey]

theorem unparsable_keys_deny_all_witness :
    unmarshalClientKeys none = [] ∧
    clientKeyMiddleware (unmarshalClientKeys none) "api-key-1" =
      .deny invalidKeyMsg ∧
    handleRequest (unmarshalClientKeys none) "http://0.0.0.0:8080" [] FS.empty
        (.save "api-key-1" wForm 5) =
      (FS.empty, .jsonMsg 403 [("message", invalidKeyMsg)]) :=
  unparsable_keys_deny_all "api-key-1" "http://0.0.0.0:8080" [] FS.empty wForm 5
    (by decide)

/-- C8: a successful get-form responds with the fixed template rendered with
exactly three substitutions: the stored form's raw JSON as a (compact,
key-sorted) string, the absolute submission URL — the configured domain plus
`/api/submit-form/<FormID>`, since `filepath.Join` is the identity on a clean
single-segment id — and the static token `x.y.z`, the same on every request
(never a generated credential). -/
theorem get_success_renders_three_holes (domain : String) (tpl : List TplPart)
    (fs : FS) (id : String) (j : Json) (hid : cleanSeg id = true)
    (hfile : readForm fs id = some j) :
    getFormHandler domain tpl fs id =
      .html 200 (renderTemplate tpl
        [("data", renderJsonCompact j),
         ("url", domain ++ "/api/submit-form/" ++ id),
         ("clientXToken", staticClientXToken)]) ∧
    staticClientXToken = "x.y.z" := by
  have hne : id ≠ "" := by
    intro he; subst he; simp [cleanSeg] at hid
  refine ⟨?_, rfl⟩
  simp [getFormHandler, hne, hfile, goJoin2_submit id hid, String.append_assoc]

theorem get_success_renders_three_holes_witness :
    getFormHandler "http://0.0.0.0:8080" exTpl wStore "123" =
      .html 200 (renderTemplate exTpl
        [("data", renderJsonCompact (encodeFormJson wForm)),
         ("url", "http://0.0.0.0:8080" ++ "/api/submit-form/" ++ "123"),
         ("clientXToken", staticClientXToken)]) ∧
    staticClientXToken = "x.y.z" :=
  get_success_renders_three_holes "http://0.0.0.0:8080" exTpl wStore "123"
    (encodeFormJson wForm) (by decide) rfl

/-- C3 counterexample: a form with a present-but-EMPTY fields list is not
rejected, refuting the original claim's empty-fields-list case.
go-playground's `required` on a slice checks only non-nil, and the bound
JSON `[]` is a non-nil empty slice, so `{"title":"t","fields":[]}` passes
validation; save-form answers 200 and writes `form.json` to disk. -/
theorem save_empty_fields_accepted :
    validateForm ⟨"t", []⟩ = true ∧
    (saveFormHandler FS.empty 5 ⟨"t", []⟩).2.status = 200 ∧
    (saveFormHandler FS.empty 5 ⟨"t", []⟩).2.status ≠ 400 ∧
    readForm (saveFormHandler FS.empty 5 ⟨"t", []⟩).1 (Nat.repr 5) =
      some (encodeFormJson ⟨"t", []⟩) ∧
    (saveFormHandler FS.empty 5 ⟨"t", []⟩).1.dirs = [Nat.repr 5] :=
  ⟨by decide, by decide, by decide, rfl, by decide⟩

end FormBuilder
